import Mathlib

/-!
Verification of the command-schema-and-decoder unit
(`packages/renderer/rust/payloads.rs`).

The Rust unit declares serde-derived data types (`ImageLayer`, `SolidLayer`,
`Layer`, `ImageFormat`, `CliGenerateImageCommand`, `ExtractFrameCommand`,
`CliInputCommand`) and a single entry point `parse_cli` that deserializes a
JSON string into a `CliInputCommand`, escalating every decode error.

The embedding below models:
  * JSON documents as a `Json` value tree, together with a fueled textual
    JSON parser (standing for serde_json's lexer/parser).  JSON number
    tokens are kept as exact values: integer tokens as `Int`, tokens with a
    fraction or exponent as `ℚ` (serde_json's `f64` is modelled by the
    exact rational the literal denotes).
  * the serde-derived `Deserialize` impls as explicit decoders
    `Json → Except DecodeError _`, following serde's documented semantics:
    adjacently tagged enums (`tag = "type"`, `content = "params"`),
    externally tagged unit enums from bare strings, structs by field lookup
    with unknown fields ignored, unsigned integers rejecting negative
    integers and any float token, `[u8; 4]` requiring exactly four in-range
    elements.  (Not modelled: serde's duplicate-field error and the
    sequence form of adjacently tagged enums, which no property here
    touches.)
  * the serde-derived `Serialize` impls as encoders `_ → Json`.
  * Rust's divergent error handling (`errors::handle_error`) as the
    `Except DecodeError` result of `parse_cli`, as the specification
    directs.
-/

namespace Payloads

/-- A JSON value tree.  Number tokens keep their lexical class: `int` for
tokens with no fraction/exponent part, `float` otherwise (exact value). -/
inductive Json where
  | null : Json
  | bool : Bool → Json
  | int : Int → Json
  | float : ℚ → Json
  | str : String → Json
  | arr : List Json → Json
  | obj : List (String × Json) → Json

/-- The single decode-error kind; carries a human-readable message, as
serde_json errors do.  Mirrors the spec's `DecodeError` taxonomy. -/
structure DecodeError where
  msg : String
deriving DecidableEq, Repr

/-- `ImageLayer` of payloads.rs: `src: String, x, y, width, height: u32`.
`u32` fields are `Nat`s; the decoder enforces the `< 2^32` bound. -/
structure ImageLayer where
  src : String
  x : Nat
  y : Nat
  width : Nat
  height : Nat
deriving DecidableEq, Repr

/-- `SolidLayer` of payloads.rs: `fill: [u8; 4], x, y, width, height: u32`.
The `[u8; 4]` array is a `List Nat`; the decoder enforces length 4 and the
`< 256` bound on every component. -/
structure SolidLayer where
  fill : List Nat
  x : Nat
  y : Nat
  width : Nat
  height : Nat
deriving DecidableEq, Repr

/-- `Layer` of payloads.rs: adjacently tagged enum
(`#[serde(tag = "type", content = "params")]`). -/
inductive Layer where
  | PngImage : ImageLayer → Layer
  | JpgImage : ImageLayer → Layer
  | Solid : SolidLayer → Layer
deriving DecidableEq, Repr

/-- `ImageFormat` of payloads.rs: externally tagged unit enum. -/
inductive ImageFormat where
  | Png : ImageFormat
  | Jpeg : ImageFormat
deriving DecidableEq, Repr

/-- `CliGenerateImageCommand` of payloads.rs. -/
structure CliGenerateImageCommand where
  width : Nat
  height : Nat
  layers : List Layer
  output_format : ImageFormat
  output : String
deriving DecidableEq, Repr

/-- `ExtractFrameCommand` of payloads.rs; `time: f64` is modelled as the
exact rational value of the JSON number. -/
structure ExtractFrameCommand where
  input : String
  output : String
  time : ℚ
deriving DecidableEq, Repr

/-- `CliInputCommand` of payloads.rs: adjacently tagged enum
(`#[serde(tag = "type", content = "params")]`). -/
inductive CliInputCommand where
  | ExtractFrame : ExtractFrameCommand → CliInputCommand
  | Compose : CliGenerateImageCommand → CliInputCommand
deriving DecidableEq, Repr

instance {ε α : Type} [DecidableEq ε] [DecidableEq α] : DecidableEq (Except ε α) := fun x y =>
  match x, y with
  | .ok a, .ok b =>
    if h : a = b then .isTrue (by rw [h]) else
      .isFalse (fun hc => h (Except.ok.inj hc))
  | .error a, .error b =>
    if h : a = b then .isTrue (by rw [h]) else
      .isFalse (fun hc => h (Except.error.inj hc))
  | .ok _, .error _ => .isFalse (fun hc => Except.noConfusion hc)
  | .error _, .ok _ => .isFalse (fun hc => Except.noConfusion hc)

/-! ### Field lookup on JSON objects (serde map access) -/

/-- Look up a field by name in a decoded JSON object. -/
def getField (kvs : List (String × Json)) (name : String) : Option Json :=
  match kvs with
  | [] => none
  | (k, v) :: rest => if k = name then some v else getField rest name

/-- Decode a required struct field: missing field is an error
(serde's `missing field` error). -/
def reqField (kvs : List (String × Json)) (name : String)
    (dec : Json → Except DecodeError α) : Except DecodeError α :=
  match getField kvs name with
  | none => .error ⟨"missing field " ++ name⟩
  | some j => dec j

/-! ### Primitive decoders (serde_json semantics) -/

/-- Decode a Rust `String` field. -/
def decodeString : Json → Except DecodeError String
  | .str s => .ok s
  | _ => .error ⟨"invalid type: expected a string"⟩

/-- Decode a Rust `u32` field: only integer tokens in `[0, 2^32)` are
accepted; float tokens and negative integers are rejected (serde_json). -/
def decodeU32 : Json → Except DecodeError Nat
  | .int n =>
    if 0 ≤ n ∧ n < 4294967296 then .ok n.toNat
    else .error ⟨"invalid value: out of range for u32"⟩
  | _ => .error ⟨"invalid type: expected u32"⟩

/-- Decode a Rust `u8` field: only integer tokens in `[0, 256)`. -/
def decodeU8 : Json → Except DecodeError Nat
  | .int n =>
    if 0 ≤ n ∧ n < 256 then .ok n.toNat
    else .error ⟨"invalid value: out of range for u8"⟩
  | _ => .error ⟨"invalid type: expected u8"⟩

/-- Decode a Rust `f64` field: any number token is accepted. -/
def decodeF64 : Json → Except DecodeError ℚ
  | .int n => .ok (n : ℚ)
  | .float q => .ok q
  | _ => .error ⟨"invalid type: expected f64"⟩

/-- Decode a list of JSON values elementwise, in order, failing on the
first element that fails (serde sequence access). -/
def decodeList (dec : Json → Except DecodeError α) : List Json → Except DecodeError (List α)
  | [] => .ok []
  | j :: js => do
    let a ← dec j
    let as ← decodeList dec js
    pure (a :: as)

/-- Decode the `fill: [u8; 4]` array: exactly four elements, each a `u8`. -/
def decodeFill : Json → Except DecodeError (List Nat)
  | .arr xs =>
    if xs.length = 4 then decodeList decodeU8 xs
    else .error ⟨"invalid length: expected an array of length 4"⟩
  | _ => .error ⟨"invalid type: expected an array"⟩

/-! ### Struct and enum decoders (derived `Deserialize` impls) -/

/-- Derived decoder for `ImageLayer` (fields in declaration order). -/
def decodeImageLayer : Json → Except DecodeError ImageLayer
  | .obj kvs => do
    let src ← reqField kvs "src" decodeString
    let x ← reqField kvs "x" decodeU32
    let y ← reqField kvs "y" decodeU32
    let width ← reqField kvs "width" decodeU32
    let height ← reqField kvs "height" decodeU32
    pure ⟨src, x, y, width, height⟩
  | _ => .error ⟨"invalid type: expected a map for ImageLayer"⟩

/-- Derived decoder for `SolidLayer` (fields in declaration order). -/
def decodeSolidLayer : Json → Except DecodeError SolidLayer
  | .obj kvs => do
    let fill ← reqField kvs "fill" decodeFill
    let x ← reqField kvs "x" decodeU32
    let y ← reqField kvs "y" decodeU32
    let width ← reqField kvs "width" decodeU32
    let height ← reqField kvs "height" decodeU32
    pure ⟨fill, x, y, width, height⟩
  | _ => .error ⟨"invalid type: expected a map for SolidLayer"⟩

/-- Fetch the `params` content of an adjacently tagged enum; missing
content is serde's `missing field params` error. -/
def reqParams (kvs : List (String × Json)) : Except DecodeError Json :=
  match getField kvs "params" with
  | none => .error ⟨"missing field params"⟩
  | some p => .ok p

/-- Derived decoder for the adjacently tagged `Layer` enum. -/
def decodeLayer : Json → Except DecodeError Layer
  | .obj kvs =>
    match getField kvs "type" with
    | none => .error ⟨"missing field type"⟩
    | some (.str tag) =>
      if tag = "PngImage" then do
        let p ← reqParams kvs
        let v ← decodeImageLayer p
        pure (Layer.PngImage v)
      else if tag = "JpgImage" then do
        let p ← reqParams kvs
        let v ← decodeImageLayer p
        pure (Layer.JpgImage v)
      else if tag = "Solid" then do
        let p ← reqParams kvs
        let v ← decodeSolidLayer p
        pure (Layer.Solid v)
      else .error ⟨"unknown variant " ++ tag⟩
    | some _ => .error ⟨"invalid type: variant tag must be a string"⟩
  | _ => .error ⟨"invalid type: expected a map for Layer"⟩

/-- Derived decoder for `ImageFormat`: a bare string naming the variant. -/
def decodeImageFormat : Json → Except DecodeError ImageFormat
  | .str s =>
    if s = "Png" then .ok ImageFormat.Png
    else if s = "Jpeg" then .ok ImageFormat.Jpeg
    else .error ⟨"unknown variant " ++ s⟩
  | _ => .error ⟨"invalid type: expected a string for ImageFormat"⟩

/-- Decode the `layers: Vec<Layer>` field. -/
def decodeLayers : Json → Except DecodeError (List Layer)
  | .arr xs => decodeList decodeLayer xs
  | _ => .error ⟨"invalid type: expected an array of layers"⟩

/-- Derived decoder for `CliGenerateImageCommand`. -/
def decodeCliGenerateImageCommand : Json → Except DecodeError CliGenerateImageCommand
  | .obj kvs => do
    let width ← reqField kvs "width" decodeU32
    let height ← reqField kvs "height" decodeU32
    let layers ← reqField kvs "layers" decodeLayers
    let output_format ← reqField kvs "output_format" decodeImageFormat
    let output ← reqField kvs "output" decodeString
    pure ⟨width, height, layers, output_format, output⟩
  | _ => .error ⟨"invalid type: expected a map for CliGenerateImageCommand"⟩

/-- Derived decoder for `ExtractFrameCommand`. -/
def decodeExtractFrameCommand : Json → Except DecodeError ExtractFrameCommand
  | .obj kvs => do
    let input ← reqField kvs "input" decodeString
    let output ← reqField kvs "output" decodeString
    let time ← reqField kvs "time" decodeF64
    pure ⟨input, output, time⟩
  | _ => .error ⟨"invalid type: expected a map for ExtractFrameCommand"⟩

/-- Derived decoder for the adjacently tagged `CliInputCommand` enum. -/
def decodeCliInputCommand : Json → Except DecodeError CliInputCommand
  | .obj kvs =>
    match getField kvs "type" with
    | none => .error ⟨"missing field type"⟩
    | some (.str tag) =>
      if tag = "ExtractFrame" then do
        let p ← reqParams kvs
        let v ← decodeExtractFrameCommand p
        pure (CliInputCommand.ExtractFrame v)
      else if tag = "Compose" then do
        let p ← reqParams kvs
        let v ← decodeCliGenerateImageCommand p
        pure (CliInputCommand.Compose v)
      else .error ⟨"unknown variant " ++ tag⟩
    | some _ => .error ⟨"invalid type: variant tag must be a string"⟩
  | _ => .error ⟨"invalid type: expected a map for CliInputCommand"⟩

/-! ### Encoders (derived `Serialize` impls)

serde serializes `u32`/`u8` as integer tokens, `f64` as a float token,
structs as objects in field declaration order, adjacently tagged enums as
`{"type": tag, "params": content}`, and unit enum variants as bare
strings. -/

/-- Derived encoder for `ImageLayer`. -/
def ImageLayer.toJson (v : ImageLayer) : Json :=
  .obj [("src", .str v.src), ("x", .int (v.x : Int)), ("y", .int (v.y : Int)),
        ("width", .int (v.width : Int)), ("height", .int (v.height : Int))]

/-- Derived encoder for `SolidLayer`. -/
def SolidLayer.toJson (v : SolidLayer) : Json :=
  .obj [("fill", .arr (v.fill.map (fun (c : Nat) => Json.int (c : Int)))),
        ("x", .int (v.x : Int)), ("y", .int (v.y : Int)),
        ("width", .int (v.width : Int)), ("height", .int (v.height : Int))]

/-- Derived encoder for `Layer` (adjacently tagged). -/
def Layer.toJson : Layer → Json
  | .PngImage v => .obj [("type", .str "PngImage"), ("params", v.toJson)]
  | .JpgImage v => .obj [("type", .str "JpgImage"), ("params", v.toJson)]
  | .Solid v => .obj [("type", .str "Solid"), ("params", v.toJson)]

/-- Derived encoder for `ImageFormat` (bare variant string). -/
def ImageFormat.toJson : ImageFormat → Json
  | .Png => .str "Png"
  | .Jpeg => .str "Jpeg"

/-- Derived encoder for `CliGenerateImageCommand`. -/
def CliGenerateImageCommand.toJson (v : CliGenerateImageCommand) : Json :=
  .obj [("width", .int (v.width : Int)), ("height", .int (v.height : Int)),
        ("layers", .arr (v.layers.map Layer.toJson)),
        ("output_format", v.output_format.toJson),
        ("output", .str v.output)]

/-- Derived encoder for `ExtractFrameCommand` (`time` as a float token,
as serde_json renders every `f64`). -/
def ExtractFrameCommand.toJson (v : ExtractFrameCommand) : Json :=
  .obj [("input", .str v.input), ("output", .str v.output),
        ("time", .float v.time)]

/-- Derived encoder for `CliInputCommand` (adjacently tagged). -/
def CliInputCommand.toJson : CliInputCommand → Json
  | .ExtractFrame v => .obj [("type", .str "ExtractFrame"), ("params", v.toJson)]
  | .Compose v => .obj [("type", .str "Compose"), ("params", v.toJson)]

/-! ### Textual JSON parser (serde_json's parsing front end)

A standard recursive-descent JSON parser over `List Char`, with explicit
fuel bounding recursion depth.  It produces the `Json` tree the decoders
consume.  Escapes are handled; `\u` escapes are restricted to non-surrogate
code points below `0xD800` (surrogate pairs are not modelled — no property
here involves them). -/

/-- JSON insignificant whitespace. -/
def isWs (c : Char) : Bool :=
  c = ' ' || c = '\n' || c = '\t' || c = '\r'

/-- Drop leading JSON whitespace. -/
def skipWs : List Char → List Char
  | [] => []
  | c :: cs => if isWs c then skipWs cs else c :: cs

/-- Hexadecimal digit value. -/
def hexVal (c : Char) : Option Nat :=
  if '0' ≤ c ∧ c ≤ '9' then some (c.toNat - 48)
  else if 'a' ≤ c ∧ c ≤ 'f' then some (c.toNat - 87)
  else if 'A' ≤ c ∧ c ≤ 'F' then some (c.toNat - 55)
  else none

/-- Resolve a single-character escape. -/
def unescape (c : Char) : Option Char :=
  if c = '"' then some '"'
  else if c = '\\' then some '\\'
  else if c = '/' then some '/'
  else if c = 'b' then some (Char.ofNat 8)
  else if c = 'f' then some (Char.ofNat 12)
  else if c = 'n' then some '\n'
  else if c = 'r' then some '\r'
  else if c = 't' then some '\t'
  else none

/-- Parse the characters of a JSON string after the opening quote, up to
and including the closing quote.  Returns the decoded characters and the
rest of the input. -/
def parseStrChars : Nat → List Char → Option (List Char × List Char)
  | 0, _ => none
  | _ + 1, [] => none
  | fuel + 1, c :: rest =>
    if c = '"' then some ([], rest)
    else if c = '\\' then
      match rest with
      | [] => none
      | e :: rest2 =>
        if e = 'u' then
          match rest2 with
          | a :: b :: c2 :: d :: rest3 => do
            let ha ← hexVal a
            let hb ← hexVal b
            let hc ← hexVal c2
            let hd ← hexVal d
            let n := ha * 4096 + hb * 256 + hc * 16 + hd
            if n < 55296 then do
              let (cs, r) ← parseStrChars fuel rest3
              pure (Char.ofNat n :: cs, r)
            else none
          | _ => none
        else do
          let u ← unescape e
          let (cs, r) ← parseStrChars fuel rest2
          pure (u :: cs, r)
    else if c.toNat < 32 then none
    else do
      let (cs, r) ← parseStrChars fuel rest
      pure (c :: cs, r)

/-- Longest prefix of decimal digits. -/
def takeDigits : List Char → List Char × List Char
  | [] => ([], [])
  | c :: cs =>
    if c.isDigit then
      let (ds, r) := takeDigits cs
      (c :: ds, r)
    else ([], c :: cs)

/-- Decimal digits to a natural number. -/
def digitsToNat (ds : List Char) : Nat :=
  ds.foldl (fun a c => a * 10 + (c.toNat - 48)) 0

/-- Parse a JSON number token.  A token with no fraction and no exponent
is an integer token (`Json.int`); otherwise it is a float token
(`Json.float`) holding the exact rational value of the literal. -/
def parseNumber (cs : List Char) : Option (Json × List Char) :=
  let (neg, cs1) :=
    match cs with
    | '-' :: rest => (true, rest)
    | _ => (false, cs)
  match takeDigits cs1 with
  | ([], _) => none
  | (ids, cs2) =>
    if 1 < ids.length ∧ ids.head? = some '0' then none
    else
      let ip : Nat := digitsToNat ids
      let (hasFrac, fds, cs3) :=
        match cs2 with
        | '.' :: rest =>
          let (ds, r) := takeDigits rest
          (true, ds, r)
        | _ => (false, [], cs2)
      if hasFrac ∧ fds = [] then none
      else
        let (hasExp, expNeg, eds, cs4) :=
          match cs3 with
          | 'e' :: '+' :: rest | 'E' :: '+' :: rest =>
            let (ds, r) := takeDigits rest
            (true, false, ds, r)
          | 'e' :: '-' :: rest | 'E' :: '-' :: rest =>
            let (ds, r) := takeDigits rest
            (true, true, ds, r)
          | 'e' :: rest | 'E' :: rest =>
            let (ds, r) := takeDigits rest
            (true, false, ds, r)
          | _ => (false, false, [], cs3)
        if hasExp ∧ eds = [] then none
        else if ¬hasFrac ∧ ¬hasExp then
          some (.int (if neg then -(ip : Int) else (ip : Int)), cs2)
        else
          let mant : Nat := ip * 10 ^ fds.length + digitsToNat fds
          let e : Nat := digitsToNat eds
          let numAbs : Nat := if hasExp ∧ ¬expNeg then mant * 10 ^ e else mant
          let den : Nat := 10 ^ fds.length * (if hasExp ∧ expNeg then 10 ^ e else 1)
          let num : Int := if neg then -(numAbs : Int) else (numAbs : Int)
          some (.float (mkRat num den), cs4)

mutual

/-- Parse one JSON value (after consuming insignificant whitespace). -/
def parseVal : Nat → List Char → Option (Json × List Char)
  | 0, _ => none
  | fuel + 1, cs =>
    match skipWs cs with
    | [] => none
    | '{' :: rest =>
      (match skipWs rest with
       | '}' :: r => some (.obj [], r)
       | cs2 => parseMembers fuel cs2 [])
    | '[' :: rest =>
      (match skipWs rest with
       | ']' :: r => some (.arr [], r)
       | cs2 => parseItems fuel cs2 [])
    | '"' :: rest =>
      (parseStrChars (rest.length + 1) rest).map (fun p => (Json.str ⟨p.1⟩, p.2))
    | 't' :: 'r' :: 'u' :: 'e' :: rest => some (.bool true, rest)
    | 'f' :: 'a' :: 'l' :: 's' :: 'e' :: rest => some (.bool false, rest)
    | 'n' :: 'u' :: 'l' :: 'l' :: rest => some (.null, rest)
    | c :: rest =>
      if c = '-' || c.isDigit then parseNumber (c :: rest) else none

/-- Parse the members of a non-empty JSON object, accumulating pairs in
source order. -/
def parseMembers : Nat → List Char → List (String × Json) → Option (Json × List Char)
  | 0, _, _ => none
  | fuel + 1, cs, acc =>
    match skipWs cs with
    | '"' :: rest => do
      let (ks, r1) ← parseStrChars (rest.length + 1) rest
      match skipWs r1 with
      | ':' :: r2 => do
        let (v, r3) ← parseVal fuel r2
        match skipWs r3 with
        | ',' :: r4 => parseMembers fuel r4 (acc ++ [(⟨ks⟩, v)])
        | '}' :: r4 => some (.obj (acc ++ [(⟨ks⟩, v)]), r4)
        | _ => none
      | _ => none
    | _ => none

/-- Parse the items of a non-empty JSON array, accumulating values in
source order. -/
def parseItems : Nat → List Char → List Json → Option (Json × List Char)
  | 0, _, _ => none
  | fuel + 1, cs, acc => do
    let (v, r1) ← parseVal fuel cs
    match skipWs r1 with
    | ',' :: r2 => parseItems fuel r2 (acc ++ [v])
    | ']' :: r2 => some (.arr (acc ++ [v]), r2)
    | _ => none

end

/-- Parse a whole JSON document: one value, then only trailing whitespace
(serde_json rejects trailing characters). -/
def parse_json (s : String) : Option Json :=
  match parseVal (2 * s.length + 2) s.data with
  | some (j, rest) => if skipWs rest = [] then some j else none
  | none => none

/-- `parse_cli` of payloads.rs.  The Rust function deserializes the string
into a `CliInputCommand` and hands any serde_json error to the divergent
`errors::handle_error`; per the specification, that control transfer is
modelled as the `Except` error outcome. -/
def parse_cli (json : String) : Except DecodeError CliInputCommand :=
  match parse_json json with
  | none => .error ⟨"JSON syntax error"⟩
  | some j => decodeCliInputCommand j

/-! ### Basic lemmas about the `Except` monad and field lookup -/

theorem ok_bind {α β : Type} (a : α) (f : α → Except DecodeError β) :
    (Except.ok a >>= f) = f a := rfl

theorem error_bind {α β : Type} (e : DecodeError) (f : α → Except DecodeError β) :
    ((Except.error e : Except DecodeError α) >>= f) = .error e := rfl

theorem ok_map {α β : Type} (f : α → β) (a : α) :
    (f <$> (Except.ok a : Except DecodeError α)) = .ok (f a) := rfl

theorem error_map {α β : Type} (f : α → β) (e : DecodeError) :
    (f <$> (Except.error e : Except DecodeError α)) = (.error e : Except DecodeError β) := rfl

/-- Inversion for a successful `Except` bind. -/
theorem exceptBind_ok {α β : Type} {x : Except DecodeError α}
    {f : α → Except DecodeError β} {b : β} (h : (x >>= f) = .ok b) :
    ∃ a, x = .ok a ∧ f a = .ok b := by
  cases x with
  | ok a => exact ⟨a, rfl, h⟩
  | error e => exact absurd h (by simp [error_bind])

/-- Every `Except` result is an `ok` or an `error`: there is no third
outcome. -/
theorem except_dichotomy {α : Type} (x : Except DecodeError α) :
    (∃ a, x = .ok a) ∨ (∃ e, x = .error e) := by
  cases x with
  | ok a => exact .inl ⟨a, rfl⟩
  | error e => exact .inr ⟨e, rfl⟩

/-- A result that is no `ok` is an `error`. -/
theorem error_of_not_ok {α : Type} {x : Except DecodeError α}
    (h : ∀ a, x ≠ .ok a) : ∃ e, x = .error e := by
  rcases except_dichotomy x with ⟨a, ha⟩ | he
  · exact absurd ha (h a)
  · exact he

/-- Inversion for a successful required-field decode. -/
theorem reqField_ok {α : Type} {kvs : List (String × Json)} {name : String}
    {dec : Json → Except DecodeError α} {a : α}
    (h : reqField kvs name dec = .ok a) :
    ∃ j, getField kvs name = some j ∧ dec j = .ok a := by
  unfold reqField at h
  cases hg : getField kvs name with
  | none => rw [hg] at h; exact absurd h (by simp)
  | some j => rw [hg] at h; exact ⟨j, rfl, h⟩

/-- A missing field makes the required-field decode fail. -/
theorem reqField_none {α : Type} {kvs : List (String × Json)} {name : String}
    (dec : Json → Except DecodeError α) (h : getField kvs name = none) :
    reqField kvs name dec = .error ⟨"missing field " ++ name⟩ := by
  unfold reqField; rw [h]

/-- Looking a name up past an inserted pair with a different key is
unchanged. -/
theorem getField_insert_ne (kvs₁ kvs₂ : List (String × Json)) (k name : String)
    (v : Json) (h : k ≠ name) :
    getField (kvs₁ ++ (k, v) :: kvs₂) name = getField (kvs₁ ++ kvs₂) name := by
  induction kvs₁ with
  | nil => simp [getField, h]
  | cons p rest ih => simp [getField, ih]

/-- Required-field decode past an inserted pair with a different key is
unchanged. -/
theorem reqField_insert_ne {α : Type} (kvs₁ kvs₂ : List (String × Json))
    (k name : String) (v : Json) (dec : Json → Except DecodeError α) (h : k ≠ name) :
    reqField (kvs₁ ++ (k, v) :: kvs₂) name dec = reqField (kvs₁ ++ kvs₂) name dec := by
  unfold reqField; rw [getField_insert_ne kvs₁ kvs₂ k name v h]

/-! ### Inversion lemmas for the primitive decoders -/

/-- A `u32` field decodes successfully exactly from a nonnegative integer
token below `2^32`, and yields that integer. -/
theorem decodeU32_ok {j : Json} {n : Nat} (h : decodeU32 j = .ok n) :
    ∃ k : Nat, j = .int (k : Int) ∧ n = k ∧ k < 4294967296 := by
  cases j with
  | int m =>
    simp only [decodeU32] at h
    by_cases hc : 0 ≤ m ∧ m < 4294967296
    · rw [if_pos hc] at h
      refine ⟨m.toNat, ?_, ?_, ?_⟩
      · rw [Int.toNat_of_nonneg hc.1]
      · exact (Except.ok.inj h).symm
      · have := hc.2
        omega
    · rw [if_neg hc] at h; exact absurd h (by simp)
  | null => exact absurd h (by simp [decodeU32])
  | bool b => exact absurd h (by simp [decodeU32])
  | float q => exact absurd h (by simp [decodeU32])
  | str s => exact absurd h (by simp [decodeU32])
  | arr xs => exact absurd h (by simp [decodeU32])
  | obj kvs => exact absurd h (by simp [decodeU32])

/-- A `u8` component decodes successfully exactly from a nonnegative
integer token below `256`. -/
theorem decodeU8_ok {j : Json} {n : Nat} (h : decodeU8 j = .ok n) :
    ∃ k : Nat, j = .int (k : Int) ∧ n = k ∧ k < 256 := by
  cases j with
  | int m =>
    simp only [decodeU8] at h
    by_cases hc : 0 ≤ m ∧ m < 256
    · rw [if_pos hc] at h
      refine ⟨m.toNat, ?_, ?_, ?_⟩
      · rw [Int.toNat_of_nonneg hc.1]
      · exact (Except.ok.inj h).symm
      · have := hc.2
        omega
    · rw [if_neg hc] at h; exact absurd h (by simp)
  | null => exact absurd h (by simp [decodeU8])
  | bool b => exact absurd h (by simp [decodeU8])
  | float q => exact absurd h (by simp [decodeU8])
  | str s => exact absurd h (by simp [decodeU8])
  | arr xs => exact absurd h (by simp [decodeU8])
  | obj kvs => exact absurd h (by simp [decodeU8])

/-- A string field decodes successfully only from a string token. -/
theorem decodeString_ok {j : Json} {s : String} (h : decodeString j = .ok s) :
    j = .str s := by
  cases j with
  | str t =>
    have ht : t = s := Except.ok.inj h
    rw [ht]
  | null => exact absurd h (by simp [decodeString])
  | bool b => exact absurd h (by simp [decodeString])
  | int n => exact absurd h (by simp [decodeString])
  | float q => exact absurd h (by simp [decodeString])
  | arr xs => exact absurd h (by simp [decodeString])
  | obj kvs => exact absurd h (by simp [decodeString])

/-- Encoding a `u32` value back to an integer token decodes to itself. -/
theorem decodeU32_encode (x : Nat) (hx : x < 4294967296) :
    decodeU32 (.int (x : Int)) = .ok x := by
  have h1 : (0 : Int) ≤ (x : Int) := Int.ofNat_nonneg x
  have h2 : (x : Int) < 4294967296 := by exact_mod_cast hx
  simp [decodeU32, h1, h2]

/-- Encoding a `u8` component back to an integer token decodes to
itself. -/
theorem decodeU8_encode (x : Nat) (hx : x < 256) :
    decodeU8 (.int (x : Int)) = .ok x := by
  have h1 : (0 : Int) ≤ (x : Int) := Int.ofNat_nonneg x
  have h2 : (x : Int) < 256 := by exact_mod_cast hx
  simp [decodeU8, h1, h2]

/-! ### Lemmas about elementwise list decoding -/

/-- Inversion of `decodeList` on a cons cell. -/
theorem decodeList_cons_ok {α : Type} {dec : Json → Except DecodeError α}
    {j : Json} {js : List Json} {as : List α}
    (h : decodeList dec (j :: js) = .ok as) :
    ∃ a as', dec j = .ok a ∧ decodeList dec js = .ok as' ∧ as = a :: as' := by
  unfold decodeList at h
  obtain ⟨a, ha, h⟩ := exceptBind_ok h
  obtain ⟨as', has, h⟩ := exceptBind_ok h
  exact ⟨a, as', ha, has, (Except.ok.inj h).symm⟩

/-- A successful elementwise decode yields a list of the same length. -/
theorem decodeList_ok_length {α : Type} {dec : Json → Except DecodeError α} :
    ∀ {js : List Json} {as : List α}, decodeList dec js = .ok as →
      as.length = js.length := by
  intro js
  induction js with
  | nil =>
    intro as h
    unfold decodeList at h
    rw [← Except.ok.inj h]
    rfl
  | cons j js ih =>
    intro as h
    obtain ⟨a, as', _, has, rfl⟩ := decodeList_cons_ok h
    simp [ih has]

/-- A successful elementwise decode decodes the `i`-th input element to
the `i`-th output element: order is preserved exactly. -/
theorem decodeList_ok_get {α : Type} {dec : Json → Except DecodeError α} :
    ∀ {js : List Json} {as : List α}, decodeList dec js = .ok as →
      ∀ (i : Nat) (h1 : i < js.length) (h2 : i < as.length),
        dec (js.get ⟨i, h1⟩) = .ok (as.get ⟨i, h2⟩) := by
  intro js
  induction js with
  | nil => intro as h i h1 h2; exact absurd h1 (by simp)
  | cons j js ih =>
    intro as h i h1 h2
    obtain ⟨a, as', ha, has, rfl⟩ := decodeList_cons_ok h
    cases i with
    | zero => simpa using ha
    | succ k =>
      have h1' : k < js.length := by simpa using h1
      have h2' : k < as'.length := by simpa using h2
      simpa using ih has k h1' h2'

/-- Every input element of a successful elementwise decode decodes
successfully. -/
theorem decodeList_ok_mem_in {α : Type} {dec : Json → Except DecodeError α} :
    ∀ {js : List Json} {as : List α}, decodeList dec js = .ok as →
      ∀ j ∈ js, ∃ a, dec j = .ok a := by
  intro js
  induction js with
  | nil => intro as h j hj; exact absurd hj (by simp)
  | cons j0 js ih =>
    intro as h j hj
    obtain ⟨a, as', ha, has, rfl⟩ := decodeList_cons_ok h
    rcases List.mem_cons.mp hj with rfl | hmem
    · exact ⟨a, ha⟩
    · exact ih has j hmem

/-- Every output element of a successful elementwise decode satisfies any
property preserved by the element decoder. -/
theorem decodeList_ok_mem_out {α : Type} {dec : Json → Except DecodeError α}
    (P : α → Prop) (hdec : ∀ j a, dec j = .ok a → P a) :
    ∀ {js : List Json} {as : List α}, decodeList dec js = .ok as →
      ∀ a ∈ as, P a := by
  intro js
  induction js with
  | nil =>
    intro as h a hmem
    unfold decodeList at h
    rw [← Except.ok.inj h] at hmem
    exact absurd hmem (by simp)
  | cons j js ih =>
    intro as h a hmem
    obtain ⟨a0, as', ha, has, rfl⟩ := decodeList_cons_ok h
    rcases List.mem_cons.mp hmem with rfl | hmem'
    · exact hdec j a ha
    · exact ih has a hmem'

/-- Elementwise decode of an elementwise encoding is the identity, given
that each element round-trips. -/
theorem decodeList_map_encode {α : Type} {dec : Json → Except DecodeError α}
    {enc : α → Json} :
    ∀ (as : List α), (∀ a ∈ as, dec (enc a) = .ok a) →
      decodeList dec (as.map enc) = .ok as := by
  intro as
  induction as with
  | nil => intro _; rfl
  | cons a as ih =>
    intro h
    have ha : dec (enc a) = .ok a := h a (by simp)
    have has : decodeList dec (as.map enc) = .ok as :=
      ih (fun x hx => h x (by simp [hx]))
    simp [decodeList, ha, has, ok_bind]

/-! ### Inversion lemmas for the struct decoders -/

/-- A successful `ImageLayer` decode decodes every declared field. -/
theorem decodeImageLayer_ok {kvs : List (String × Json)} {v : ImageLayer}
    (h : decodeImageLayer (.obj kvs) = .ok v) :
    reqField kvs "src" decodeString = .ok v.src ∧
    reqField kvs "x" decodeU32 = .ok v.x ∧
    reqField kvs "y" decodeU32 = .ok v.y ∧
    reqField kvs "width" decodeU32 = .ok v.width ∧
    reqField kvs "height" decodeU32 = .ok v.height := by
  simp only [decodeImageLayer] at h
  obtain ⟨src, h1, h⟩ := exceptBind_ok h
  obtain ⟨x, h2, h⟩ := exceptBind_ok h
  obtain ⟨y, h3, h⟩ := exceptBind_ok h
  obtain ⟨w, h4, h⟩ := exceptBind_ok h
  obtain ⟨hh, h5, h⟩ := exceptBind_ok h
  have hv : ImageLayer.mk src x y w hh = v := Except.ok.inj h
  rw [← hv]
  exact ⟨h1, h2, h3, h4, h5⟩

/-- A successful `SolidLayer` decode decodes every declared field. -/
theorem decodeSolidLayer_ok {kvs : List (String × Json)} {v : SolidLayer}
    (h : decodeSolidLayer (.obj kvs) = .ok v) :
    reqField kvs "fill" decodeFill = .ok v.fill ∧
    reqField kvs "x" decodeU32 = .ok v.x ∧
    reqField kvs "y" decodeU32 = .ok v.y ∧
    reqField kvs "width" decodeU32 = .ok v.width ∧
    reqField kvs "height" decodeU32 = .ok v.height := by
  simp only [decodeSolidLayer] at h
  obtain ⟨fill, h1, h⟩ := exceptBind_ok h
  obtain ⟨x, h2, h⟩ := exceptBind_ok h
  obtain ⟨y, h3, h⟩ := exceptBind_ok h
  obtain ⟨w, h4, h⟩ := exceptBind_ok h
  obtain ⟨hh, h5, h⟩ := exceptBind_ok h
  have hv : SolidLayer.mk fill x y w hh = v := Except.ok.inj h
  rw [← hv]
  exact ⟨h1, h2, h3, h4, h5⟩

/-- A successful `ExtractFrameCommand` decode decodes every declared
field. -/
theorem decodeExtractFrameCommand_ok {kvs : List (String × Json)}
    {v : ExtractFrameCommand} (h : decodeExtractFrameCommand (.obj kvs) = .ok v) :
    reqField kvs "input" decodeString = .ok v.input ∧
    reqField kvs "output" decodeString = .ok v.output ∧
    reqField kvs "time" decodeF64 = .ok v.time := by
  simp only [decodeExtractFrameCommand] at h
  obtain ⟨i, h1, h⟩ := exceptBind_ok h
  obtain ⟨o, h2, h⟩ := exceptBind_ok h
  obtain ⟨t, h3, h⟩ := exceptBind_ok h
  have hv : ExtractFrameCommand.mk i o t = v := Except.ok.inj h
  rw [← hv]
  exact ⟨h1, h2, h3⟩

/-- A successful `CliGenerateImageCommand` decode decodes every declared
field. -/
theorem decodeCliGenerateImageCommand_ok {kvs : List (String × Json)}
    {v : CliGenerateImageCommand}
    (h : decodeCliGenerateImageCommand (.obj kvs) = .ok v) :
    reqField kvs "width" decodeU32 = .ok v.width ∧
    reqField kvs "height" decodeU32 = .ok v.height ∧
    reqField kvs "layers" decodeLayers = .ok v.layers ∧
    reqField kvs "output_format" decodeImageFormat = .ok v.output_format ∧
    reqField kvs "output" decodeString = .ok v.output := by
  simp only [decodeCliGenerateImageCommand] at h
  obtain ⟨w, h1, h⟩ := exceptBind_ok h
  obtain ⟨hh, h2, h⟩ := exceptBind_ok h
  obtain ⟨ls, h3, h⟩ := exceptBind_ok h
  obtain ⟨fmt, h4, h⟩ := exceptBind_ok h
  obtain ⟨o, h5, h⟩ := exceptBind_ok h
  have hv : CliGenerateImageCommand.mk w hh ls fmt o = v := Except.ok.inj h
  rw [← hv]
  exact ⟨h1, h2, h3, h4, h5⟩

/-- A successful `fill` decode comes from an array token of length 4 whose
elements all decode as `u8`. -/
theorem decodeFill_ok {j : Json} {l : List Nat} (h : decodeFill j = .ok l) :
    ∃ xs, j = .arr xs ∧ xs.length = 4 ∧ decodeList decodeU8 xs = .ok l := by
  cases j with
  | arr xs =>
    simp only [decodeFill] at h
    by_cases hlen : xs.length = 4
    · rw [if_pos hlen] at h
      exact ⟨xs, rfl, hlen, h⟩
    · rw [if_neg hlen] at h
      exact absurd h (by simp)
  | null => exact absurd h (by simp [decodeFill])
  | bool b => exact absurd h (by simp [decodeFill])
  | int n => exact absurd h (by simp [decodeFill])
  | float q => exact absurd h (by simp [decodeFill])
  | str s => exact absurd h (by simp [decodeFill])
  | obj kvs => exact absurd h (by simp [decodeFill])

/-- A successful `layers` decode comes from an array token decoded
elementwise. -/
theorem decodeLayers_ok {j : Json} {ls : List Layer} (h : decodeLayers j = .ok ls) :
    ∃ xs, j = .arr xs ∧ decodeList decodeLayer xs = .ok ls := by
  cases j with
  | arr xs => exact ⟨xs, rfl, h⟩
  | null => exact absurd h (by simp [decodeLayers])
  | bool b => exact absurd h (by simp [decodeLayers])
  | int n => exact absurd h (by simp [decodeLayers])
  | float q => exact absurd h (by simp [decodeLayers])
  | str s => exact absurd h (by simp [decodeLayers])
  | obj kvs => exact absurd h (by simp [decodeLayers])

/-! ### Well-formedness invariants established by decoding

Decoded values satisfy the bounds the Rust types carry structurally
(`u32`, `u8`, `[u8; 4]`); in the embedding they are decoder-established
invariants. -/

/-- Bounds on a decoded `ImageLayer` (all `u32` fields in range). -/
def WfImageLayer (v : ImageLayer) : Prop :=
  v.x < 4294967296 ∧ v.y < 4294967296 ∧ v.width < 4294967296 ∧ v.height < 4294967296

/-- Bounds on a decoded `SolidLayer` (`[u8; 4]` shape and `u32` fields). -/
def WfSolidLayer (v : SolidLayer) : Prop :=
  v.fill.length = 4 ∧ (∀ c ∈ v.fill, c < 256) ∧
  v.x < 4294967296 ∧ v.y < 4294967296 ∧ v.width < 4294967296 ∧ v.height < 4294967296

/-- Bounds on a decoded `Layer`. -/
def WfLayer : Layer → Prop
  | .PngImage v => WfImageLayer v
  | .JpgImage v => WfImageLayer v
  | .Solid v => WfSolidLayer v

/-- Bounds on a decoded `CliInputCommand`. -/
def WfCliInputCommand : CliInputCommand → Prop
  | .ExtractFrame _ => True
  | .Compose c =>
    c.width < 4294967296 ∧ c.height < 4294967296 ∧ ∀ l ∈ c.layers, WfLayer l

/-- Decoding establishes the `ImageLayer` bounds. -/
theorem decodeImageLayer_wf {j : Json} {v : ImageLayer}
    (h : decodeImageLayer j = .ok v) : WfImageLayer v := by
  cases j with
  | obj kvs =>
    obtain ⟨-, hx, hy, hw, hh⟩ := decodeImageLayer_ok h
    obtain ⟨jx, hjx, hx2⟩ := reqField_ok hx
    obtain ⟨jy, hjy, hy2⟩ := reqField_ok hy
    obtain ⟨jw, hjw, hw2⟩ := reqField_ok hw
    obtain ⟨jh, hjh, hh2⟩ := reqField_ok hh
    obtain ⟨kx, hjkx, hkx, hbx⟩ := decodeU32_ok hx2
    obtain ⟨ky, hjky, hky, hby⟩ := decodeU32_ok hy2
    obtain ⟨kw, hjkw, hkw, hbw⟩ := decodeU32_ok hw2
    obtain ⟨kh, hjkh, hkh, hbh⟩ := decodeU32_ok hh2
    exact ⟨hkx ▸ hbx, hky ▸ hby, hkw ▸ hbw, hkh ▸ hbh⟩
  | null => exact absurd h (by simp [decodeImageLayer])
  | bool b => exact absurd h (by simp [decodeImageLayer])
  | int n => exact absurd h (by simp [decodeImageLayer])
  | float q => exact absurd h (by simp [decodeImageLayer])
  | str s => exact absurd h (by simp [decodeImageLayer])
  | arr xs => exact absurd h (by simp [decodeImageLayer])

/-- Decoding establishes the `SolidLayer` bounds: the fill really has
exactly four components, each below 256. -/
theorem decodeSolidLayer_wf {j : Json} {v : SolidLayer}
    (h : decodeSolidLayer j = .ok v) : WfSolidLayer v := by
  cases j with
  | obj kvs =>
    obtain ⟨hf, hx, hy, hw, hh⟩ := decodeSolidLayer_ok h
    obtain ⟨jf, hjf, hf2⟩ := reqField_ok hf
    obtain ⟨xs, hxs, hlen, hdec⟩ := decodeFill_ok hf2
    obtain ⟨jx, hjx, hx2⟩ := reqField_ok hx
    obtain ⟨jy, hjy, hy2⟩ := reqField_ok hy
    obtain ⟨jw, hjw, hw2⟩ := reqField_ok hw
    obtain ⟨jh, hjh, hh2⟩ := reqField_ok hh
    obtain ⟨kx, hjkx, hkx, hbx⟩ := decodeU32_ok hx2
    obtain ⟨ky, hjky, hky, hby⟩ := decodeU32_ok hy2
    obtain ⟨kw, hjkw, hkw, hbw⟩ := decodeU32_ok hw2
    obtain ⟨kh, hjkh, hkh, hbh⟩ := decodeU32_ok hh2
    refine ⟨?_, ?_, hkx ▸ hbx, hky ▸ hby, hkw ▸ hbw, hkh ▸ hbh⟩
    · rw [decodeList_ok_length hdec, hlen]
    · intro c hc
      have hP := decodeList_ok_mem_out (fun a => a < 256)
          (fun j a ha => by
            obtain ⟨k, hjk, hk, hb⟩ := decodeU8_ok ha
            exact hk ▸ hb) hdec
      exact hP c hc
  | null => exact absurd h (by simp [decodeSolidLayer])
  | bool b => exact absurd h (by simp [decodeSolidLayer])
  | int n => exact absurd h (by simp [decodeSolidLayer])
  | float q => exact absurd h (by simp [decodeSolidLayer])
  | str s => exact absurd h (by simp [decodeSolidLayer])
  | arr xs => exact absurd h (by simp [decodeSolidLayer])

/-! ### Inversion lemmas for the adjacently tagged enums -/

/-- Inversion for a present `params` content. -/
theorem reqParams_ok {kvs : List (String × Json)} {p : Json}
    (h : reqParams kvs = .ok p) : getField kvs "params" = some p := by
  unfold reqParams at h
  cases hg : getField kvs "params" with
  | none => rw [hg] at h; exact absurd h (by simp)
  | some q =>
    rw [hg] at h
    have hq : q = p := Except.ok.inj h
    exact congrArg some hq

/-- A missing `params` content is an error. -/
theorem reqParams_none {kvs : List (String × Json)}
    (h : getField kvs "params" = none) :
    reqParams kvs = .error ⟨"missing field params"⟩ := by
  unfold reqParams; rw [h]

/-- Inversion for a successful `Layer` decode: there is a string tag that
is one of the three variant names, a present `params` content, and the
payload decodes with the matching payload decoder. -/
theorem decodeLayer_ok_inv {kvs : List (String × Json)} {l : Layer}
    (h : decodeLayer (.obj kvs) = .ok l) :
    ∃ tag p, getField kvs "type" = some (.str tag) ∧
      getField kvs "params" = some p ∧
      ((tag = "PngImage" ∧ ∃ v, decodeImageLayer p = .ok v ∧ l = Layer.PngImage v) ∨
       (tag = "JpgImage" ∧ ∃ v, decodeImageLayer p = .ok v ∧ l = Layer.JpgImage v) ∨
       (tag = "Solid" ∧ ∃ v, decodeSolidLayer p = .ok v ∧ l = Layer.Solid v)) := by
  simp only [decodeLayer] at h
  split at h
  · exact absurd h (by simp)
  · rename_i tag htype
    split at h
    case isTrue htag =>
      obtain ⟨p, hp, h⟩ := exceptBind_ok h
      obtain ⟨v, hv, h⟩ := exceptBind_ok h
      exact ⟨tag, p, htype, reqParams_ok hp,
        .inl ⟨htag, v, hv, (Except.ok.inj h).symm⟩⟩
    case isFalse =>
      split at h
      case isTrue htag =>
        obtain ⟨p, hp, h⟩ := exceptBind_ok h
        obtain ⟨v, hv, h⟩ := exceptBind_ok h
        exact ⟨tag, p, htype, reqParams_ok hp,
          .inr (.inl ⟨htag, v, hv, (Except.ok.inj h).symm⟩)⟩
      case isFalse =>
        split at h
        case isTrue htag =>
          obtain ⟨p, hp, h⟩ := exceptBind_ok h
          obtain ⟨v, hv, h⟩ := exceptBind_ok h
          exact ⟨tag, p, htype, reqParams_ok hp,
            .inr (.inr ⟨htag, v, hv, (Except.ok.inj h).symm⟩)⟩
        case isFalse => exact absurd h (by simp)
  · exact absurd h (by simp)

/-- Inversion for a successful `CliInputCommand` decode. -/
theorem decodeCliInputCommand_ok_inv {kvs : List (String × Json)}
    {c : CliInputCommand} (h : decodeCliInputCommand (.obj kvs) = .ok c) :
    ∃ tag p, getField kvs "type" = some (.str tag) ∧
      getField kvs "params" = some p ∧
      ((tag = "ExtractFrame" ∧
          ∃ v, decodeExtractFrameCommand p = .ok v ∧ c = CliInputCommand.ExtractFrame v) ∨
       (tag = "Compose" ∧
          ∃ v, decodeCliGenerateImageCommand p = .ok v ∧ c = CliInputCommand.Compose v)) := by
  simp only [decodeCliInputCommand] at h
  split at h
  · exact absurd h (by simp)
  · rename_i tag htype
    split at h
    case isTrue htag =>
      obtain ⟨p, hp, h⟩ := exceptBind_ok h
      obtain ⟨v, hv, h⟩ := exceptBind_ok h
      exact ⟨tag, p, htype, reqParams_ok hp,
        .inl ⟨htag, v, hv, (Except.ok.inj h).symm⟩⟩
    case isFalse =>
      split at h
      case isTrue htag =>
        obtain ⟨p, hp, h⟩ := exceptBind_ok h
        obtain ⟨v, hv, h⟩ := exceptBind_ok h
        exact ⟨tag, p, htype, reqParams_ok hp,
          .inr ⟨htag, v, hv, (Except.ok.inj h).symm⟩⟩
      case isFalse => exact absurd h (by simp)
  · exact absurd h (by simp)

/-- A decode of a non-object value into either tagged union fails. -/
theorem decodeCliInputCommand_not_obj {j : Json} {c : CliInputCommand}
    (h : decodeCliInputCommand j = .ok c) : ∃ kvs, j = .obj kvs := by
  cases j with
  | obj kvs => exact ⟨kvs, rfl⟩
  | null => exact absurd h (by simp [decodeCliInputCommand])
  | bool b => exact absurd h (by simp [decodeCliInputCommand])
  | int n => exact absurd h (by simp [decodeCliInputCommand])
  | float q => exact absurd h (by simp [decodeCliInputCommand])
  | str s => exact absurd h (by simp [decodeCliInputCommand])
  | arr xs => exact absurd h (by simp [decodeCliInputCommand])

/-- Decoding establishes the `Layer` bounds. -/
theorem decodeLayer_wf {j : Json} {l : Layer} (h : decodeLayer j = .ok l) :
    WfLayer l := by
  cases j with
  | obj kvs =>
    obtain ⟨tag, p, -, -, hcase⟩ := decodeLayer_ok_inv h
    rcases hcase with ⟨-, v, hv, rfl⟩ | ⟨-, v, hv, rfl⟩ | ⟨-, v, hv, rfl⟩
    · exact decodeImageLayer_wf hv
    · exact decodeImageLayer_wf hv
    · exact decodeSolidLayer_wf hv
  | null => exact absurd h (by simp [decodeLayer])
  | bool b => exact absurd h (by simp [decodeLayer])
  | int n => exact absurd h (by simp [decodeLayer])
  | float q => exact absurd h (by simp [decodeLayer])
  | str s => exact absurd h (by simp [decodeLayer])
  | arr xs => exact absurd h (by simp [decodeLayer])

/-- Decoding establishes the `CliInputCommand` bounds. -/
theorem decodeCliInputCommand_wf {j : Json} {c : CliInputCommand}
    (h : decodeCliInputCommand j = .ok c) : WfCliInputCommand c := by
  obtain ⟨kvs, rfl⟩ := decodeCliInputCommand_not_obj h
  obtain ⟨tag, p, -, -, hcase⟩ := decodeCliInputCommand_ok_inv h
  rcases hcase with ⟨-, v, hv, rfl⟩ | ⟨-, v, hv, rfl⟩
  · trivial
  · cases p with
    | obj pkvs =>
      obtain ⟨hw, hh, hl, -, -⟩ := decodeCliGenerateImageCommand_ok hv
      obtain ⟨jw, hjw, hw2⟩ := reqField_ok hw
      obtain ⟨jh, hjh, hh2⟩ := reqField_ok hh
      obtain ⟨jl, hjl, hl2⟩ := reqField_ok hl
      obtain ⟨kw, hjkw, hkw, hbw⟩ := decodeU32_ok hw2
      obtain ⟨kh, hjkh, hkh, hbh⟩ := decodeU32_ok hh2
      obtain ⟨xs, hxs, hdec⟩ := decodeLayers_ok hl2
      exact ⟨hkw ▸ hbw, hkh ▸ hbh,
        decodeList_ok_mem_out WfLayer (fun j a ha => decodeLayer_wf ha) hdec⟩
    | null => exact absurd hv (by simp [decodeCliGenerateImageCommand])
    | bool b => exact absurd hv (by simp [decodeCliGenerateImageCommand])
    | int n => exact absurd hv (by simp [decodeCliGenerateImageCommand])
    | float q => exact absurd hv (by simp [decodeCliGenerateImageCommand])
    | str s => exact absurd hv (by simp [decodeCliGenerateImageCommand])
    | arr xs => exact absurd hv (by simp [decodeCliGenerateImageCommand])

/-! ### Re-serialization round trip -/

/-- Decoding the encoding of a well-formed `ImageLayer` yields it back. -/
theorem decodeImageLayer_toJson (v : ImageLayer) (h : WfImageLayer v) :
    decodeImageLayer v.toJson = .ok v := by
  obtain ⟨hx, hy, hw, hh⟩ := h
  simp [ImageLayer.toJson, decodeImageLayer, reqField, getField, decodeString,
        decodeU32_encode v.x hx, decodeU32_encode v.y hy,
        decodeU32_encode v.width hw, decodeU32_encode v.height hh, ok_bind]

/-- Decoding the encoding of a well-formed `SolidLayer` yields it back. -/
theorem decodeSolidLayer_toJson (v : SolidLayer) (h : WfSolidLayer v) :
    decodeSolidLayer v.toJson = .ok v := by
  obtain ⟨hlen, hmem, hx, hy, hw, hh⟩ := h
  have hfill : decodeFill (.arr (v.fill.map (fun (c : Nat) => Json.int (c : Int)))) = .ok v.fill := by
    have hroundtrip : decodeList decodeU8 (v.fill.map (fun (c : Nat) => Json.int (c : Int))) = .ok v.fill :=
      decodeList_map_encode v.fill (fun c hc => decodeU8_encode c (hmem c hc))
    simp [decodeFill, hlen, hroundtrip]
  simp [SolidLayer.toJson, decodeSolidLayer, reqField, getField, hfill,
        decodeU32_encode v.x hx, decodeU32_encode v.y hy,
        decodeU32_encode v.width hw, decodeU32_encode v.height hh, ok_bind]

/-- Decoding the encoding of a well-formed `Layer` yields it back. -/
theorem decodeLayer_toJson (l : Layer) (h : WfLayer l) :
    decodeLayer l.toJson = .ok l := by
  cases l with
  | PngImage v =>
    have hv : decodeImageLayer v.toJson = .ok v := decodeImageLayer_toJson v h
    have h1 : ∀ p, decodeLayer (Json.obj [("type", Json.str "PngImage"), ("params", p)])
        = Layer.PngImage <$> decodeImageLayer p := fun p => rfl
    calc decodeLayer (Layer.PngImage v).toJson
        = Layer.PngImage <$> decodeImageLayer v.toJson := h1 v.toJson
      _ = Except.ok (Layer.PngImage v) := by rw [hv]; rfl
  | JpgImage v =>
    have hv : decodeImageLayer v.toJson = .ok v := decodeImageLayer_toJson v h
    have h1 : ∀ p, decodeLayer (Json.obj [("type", Json.str "JpgImage"), ("params", p)])
        = Layer.JpgImage <$> decodeImageLayer p := fun p => rfl
    calc decodeLayer (Layer.JpgImage v).toJson
        = Layer.JpgImage <$> decodeImageLayer v.toJson := h1 v.toJson
      _ = Except.ok (Layer.JpgImage v) := by rw [hv]; rfl
  | Solid v =>
    have hv : decodeSolidLayer v.toJson = .ok v := decodeSolidLayer_toJson v h
    have h1 : ∀ p, decodeLayer (Json.obj [("type", Json.str "Solid"), ("params", p)])
        = Layer.Solid <$> decodeSolidLayer p := fun p => rfl
    calc decodeLayer (Layer.Solid v).toJson
        = Layer.Solid <$> decodeSolidLayer v.toJson := h1 v.toJson
      _ = Except.ok (Layer.Solid v) := by rw [hv]; rfl

/-- Decoding the encoding of an `ImageFormat` yields it back. -/
theorem decodeImageFormat_toJson (f : ImageFormat) :
    decodeImageFormat f.toJson = .ok f := by
  cases f <;> rfl

/-- Decoding the encoding of a well-formed `CliGenerateImageCommand`
yields it back. -/
theorem decodeCliGenerateImageCommand_toJson (c : CliGenerateImageCommand)
    (hw : c.width < 4294967296) (hh : c.height < 4294967296)
    (hl : ∀ l ∈ c.layers, WfLayer l) :
    decodeCliGenerateImageCommand c.toJson = .ok c := by
  have hlayers : decodeLayers (.arr (c.layers.map Layer.toJson)) = .ok c.layers := by
    simpa [decodeLayers] using
      decodeList_map_encode c.layers (fun l hmem => decodeLayer_toJson l (hl l hmem))
  simp [CliGenerateImageCommand.toJson, decodeCliGenerateImageCommand, reqField,
        getField, hlayers, decodeU32_encode c.width hw, decodeU32_encode c.height hh,
        decodeImageFormat_toJson, decodeString, ok_bind]

/-- Decoding the encoding of an `ExtractFrameCommand` yields it back. -/
theorem decodeExtractFrameCommand_toJson (c : ExtractFrameCommand) :
    decodeExtractFrameCommand c.toJson = .ok c := by
  simp [ExtractFrameCommand.toJson, decodeExtractFrameCommand, reqField, getField,
        decodeString, decodeF64, ok_bind]

/-- Decoding the encoding of a well-formed `CliInputCommand` yields it
back: serialize-then-decode is the identity on well-formed values. -/
theorem decodeCliInputCommand_toJson (c : CliInputCommand)
    (h : WfCliInputCommand c) : decodeCliInputCommand c.toJson = .ok c := by
  cases c with
  | ExtractFrame v =>
    have hv : decodeExtractFrameCommand v.toJson = .ok v :=
      decodeExtractFrameCommand_toJson v
    have h1 : ∀ p, decodeCliInputCommand
          (Json.obj [("type", Json.str "ExtractFrame"), ("params", p)])
        = CliInputCommand.ExtractFrame <$> decodeExtractFrameCommand p := fun p => rfl
    calc decodeCliInputCommand (CliInputCommand.ExtractFrame v).toJson
        = CliInputCommand.ExtractFrame <$> decodeExtractFrameCommand v.toJson := h1 v.toJson
      _ = Except.ok (CliInputCommand.ExtractFrame v) := by rw [hv]; rfl
  | Compose v =>
    obtain ⟨hw, hh, hl⟩ := h
    have hv : decodeCliGenerateImageCommand v.toJson = .ok v :=
      decodeCliGenerateImageCommand_toJson v hw hh hl
    have h1 : ∀ p, decodeCliInputCommand
          (Json.obj [("type", Json.str "Compose"), ("params", p)])
        = CliInputCommand.Compose <$> decodeCliGenerateImageCommand p := fun p => rfl
    calc decodeCliInputCommand (CliInputCommand.Compose v).toJson
        = CliInputCommand.Compose <$> decodeCliGenerateImageCommand v.toJson := h1 v.toJson
      _ = Except.ok (CliInputCommand.Compose v) := by rw [hv]; rfl

/-! ### Claim theorems -/

/-- Claim C1: for every input string, `parse_cli` either returns a decoded
`CliInputCommand` or a `DecodeError`, with no third outcome; it returns
the decoder's value exactly when the text parses, and the syntax-error
outcome otherwise. -/
theorem parse_cli_two_outcomes (s : String) :
    ((∃ c, parse_cli s = .ok c) ∨ (∃ e, parse_cli s = .error e)) ∧
    (∀ j, parse_json s = some j → parse_cli s = decodeCliInputCommand j) ∧
    (parse_json s = none → parse_cli s = .error ⟨"JSON syntax error"⟩) := by
  refine ⟨except_dichotomy (parse_cli s), ?_, ?_⟩
  · intro j hj
    unfold parse_cli
    rw [hj]
  · intro hj
    unfold parse_cli
    rw [hj]

/-- Claim C1 witness: a non-JSON input takes the error outcome. -/
theorem parse_cli_two_outcomes_witness :
    parse_cli "x" = .error ⟨"JSON syntax error"⟩ :=
  (parse_cli_two_outcomes "x").2.2 (by rfl)

/-- Claim C2: a valid `ExtractFrame` document decodes to an
`ExtractFrame` command whose `input`, `output` and `time` fields equal the
JSON values exactly (shown for both number-token classes of `time`), and
the spec's concrete example decodes to
`ExtractFrame ("in.mp4", "out.png", 1.5)`. -/
theorem extractFrame_decode_fidelity :
    (∀ (i o : String) (t : ℚ),
        decodeCliInputCommand (.obj [("type", .str "ExtractFrame"),
          ("params", .obj [("input", .str i), ("output", .str o), ("time", .float t)])])
          = .ok (.ExtractFrame ⟨i, o, t⟩)) ∧
    (∀ (i o : String) (m : Int),
        decodeCliInputCommand (.obj [("type", .str "ExtractFrame"),
          ("params", .obj [("input", .str i), ("output", .str o), ("time", .int m)])])
          = .ok (.ExtractFrame ⟨i, o, (m : ℚ)⟩)) ∧
    parse_cli "\x7b\"type\":\"ExtractFrame\",\"params\":\x7b\"input\":\"in.mp4\",\"output\":\"out.png\",\"time\":1.5\x7d\x7d"
      = .ok (.ExtractFrame ⟨"in.mp4", "out.png", mkRat 3 2⟩) := by
  refine ⟨fun i o t => rfl, fun i o m => rfl, by decide⟩

/-- Claim C3: whenever `parse_cli` succeeds, re-serializing the decoded
value and decoding the serialization again succeeds and yields an equal
value. -/
theorem decode_reserialize_roundtrip (s : String) (c : CliInputCommand)
    (h : parse_cli s = .ok c) :
    decodeCliInputCommand c.toJson = .ok c := by
  unfold parse_cli at h
  cases hj : parse_json s with
  | none => rw [hj] at h; exact absurd h (by simp)
  | some j =>
    rw [hj] at h
    exact decodeCliInputCommand_toJson c (decodeCliInputCommand_wf h)

/-- Claim C3 witness: the round trip at the spec's `ExtractFrame`
example. -/
theorem decode_reserialize_roundtrip_witness :
    decodeCliInputCommand
        (CliInputCommand.ExtractFrame ⟨"in.mp4", "out.png", mkRat 3 2⟩).toJson
      = .ok (.ExtractFrame ⟨"in.mp4", "out.png", mkRat 3 2⟩) :=
  decode_reserialize_roundtrip
    "\x7b\"type\":\"ExtractFrame\",\"params\":\x7b\"input\":\"in.mp4\",\"output\":\"out.png\",\"time\":1.5\x7d\x7d"
    (.ExtractFrame ⟨"in.mp4", "out.png", mkRat 3 2⟩) (by decide)

/-- Claim C5: a document whose top-level `type` is any string other than
`ExtractFrame` or `Compose` fails decoding with the unknown-variant
error, and in particular the spec's `Bogus` example fails at
`parse_cli`. -/
theorem unknown_top_level_tag_fails :
    (∀ (kvs : List (String × Json)) (tag : String),
        getField kvs "type" = some (.str tag) → tag ≠ "ExtractFrame" →
        tag ≠ "Compose" →
        decodeCliInputCommand (.obj kvs) = .error ⟨"unknown variant " ++ tag⟩) ∧
    parse_cli "\x7b\"type\":\"Bogus\",\"params\":\x7b\x7d\x7d" = .error ⟨"unknown variant Bogus"⟩ := by
  constructor
  · intro kvs tag htype h1 h2
    simp [decodeCliInputCommand, htype, h1, h2]
  · decide

/-- Claim C5 witness: the general statement applied to the `Bogus`
document's object. -/
theorem unknown_top_level_tag_fails_witness :
    decodeCliInputCommand (.obj [("type", .str "Bogus"), ("params", .obj [])])
      = .error ⟨"unknown variant Bogus"⟩ :=
  unknown_top_level_tag_fails.1 [("type", .str "Bogus"), ("params", .obj [])]
    "Bogus" rfl (by decide) (by decide)

/-- Claim C10: a recognized discriminant with the `params` key missing
fails decoding with the missing-field error, at the top level and for
every layer variant. -/
theorem recognized_tag_missing_params_fails (kvs : List (String × Json))
    (hparams : getField kvs "params" = none) :
    ((getField kvs "type" = some (.str "ExtractFrame") ∨
      getField kvs "type" = some (.str "Compose")) →
        decodeCliInputCommand (.obj kvs) = .error ⟨"missing field params"⟩) ∧
    ((getField kvs "type" = some (.str "PngImage") ∨
      getField kvs "type" = some (.str "JpgImage") ∨
      getField kvs "type" = some (.str "Solid")) →
        decodeLayer (.obj kvs) = .error ⟨"missing field params"⟩) := by
  have hrp : reqParams kvs = .error ⟨"missing field params"⟩ := reqParams_none hparams
  constructor
  · rintro (htype | htype) <;>
      simp [decodeCliInputCommand, htype, hrp, error_bind]
  · rintro (htype | htype | htype) <;>
      simp [decodeLayer, htype, hrp, error_bind]

/-- Claim C10 witness: a top-level `ExtractFrame` document and a `Solid`
layer without `params` both fail. -/
theorem recognized_tag_missing_params_fails_witness :
    decodeCliInputCommand (.obj [("type", .str "ExtractFrame")])
        = .error ⟨"missing field params"⟩ ∧
    decodeLayer (.obj [("type", .str "Solid")])
        = .error ⟨"missing field params"⟩ :=
  ⟨(recognized_tag_missing_params_fails [("type", .str "ExtractFrame")] rfl).1 (.inl rfl),
   (recognized_tag_missing_params_fails [("type", .str "Solid")] rfl).2 (.inr (.inr rfl))⟩

/-- Claim C4: in a successfully decoded `Compose` document the decoded
`layers` sequence has the same length as the JSON `layers` array, the
`i`-th decoded layer is decoded from the `i`-th JSON array element, and an
empty array decodes to the empty sequence. -/
theorem compose_layers_order_preserved (kvs pkvs : List (String × Json))
    (xs : List Json) (c : CliGenerateImageCommand)
    (hp : getField kvs "params" = some (.obj pkvs))
    (hl : getField pkvs "layers" = some (.arr xs))
    (h : decodeCliInputCommand (.obj kvs) = .ok (.Compose c)) :
    c.layers.length = xs.length ∧
    (∀ (i : Nat) (h1 : i < xs.length) (h2 : i < c.layers.length),
        decodeLayer (xs.get ⟨i, h1⟩) = .ok (c.layers.get ⟨i, h2⟩)) ∧
    (xs = [] → c.layers = []) := by
  obtain ⟨tag, p, htag, hparams, hcase⟩ := decodeCliInputCommand_ok_inv h
  rcases hcase with ⟨-, v, -, hv⟩ | ⟨-, v, hdec, hv⟩
  · exact absurd hv (by simp)
  · have hc : c = v := by
      have := hv
      simp only [CliInputCommand.Compose.injEq] at this
      exact this
    subst hc
    have hpv : p = .obj pkvs := by
      rw [hp] at hparams
      exact (Option.some.inj hparams).symm
    subst hpv
    obtain ⟨-, -, hlay, -, -⟩ := decodeCliGenerateImageCommand_ok hdec
    obtain ⟨jl, hjl, hl2⟩ := reqField_ok hlay
    have hjlx : jl = .arr xs := by
      rw [hl] at hjl
      exact (Option.some.inj hjl).symm
    subst hjlx
    obtain ⟨ys, hys, hdecl⟩ := decodeLayers_ok hl2
    have hysx : ys = xs := (Json.arr.inj hys).symm
    subst hysx
    refine ⟨decodeList_ok_length hdecl, decodeList_ok_get hdecl, ?_⟩
    intro hxs
    subst hxs
    have := decodeList_ok_length hdecl
    exact List.length_eq_zero.mp this

/-- Claim C4 witness: a concrete `Compose` document with an empty
`layers` array decodes to a layer sequence of the same (zero) length. -/
theorem compose_layers_order_preserved_witness :
    (⟨100, 50, [], .Png, "o.png"⟩ : CliGenerateImageCommand).layers.length
        = ([] : List Json).length :=
  (compose_layers_order_preserved
    [("type", .str "Compose"),
     ("params", .obj [("width", .int 100), ("height", .int 50),
       ("layers", .arr []), ("output_format", .str "Png"), ("output", .str "o.png")])]
    [("width", .int 100), ("height", .int 50), ("layers", .arr []),
     ("output_format", .str "Png"), ("output", .str "o.png")]
    [] ⟨100, 50, [], .Png, "o.png"⟩ rfl rfl (by decide)).1

/-- Claim C6: an unsigned integer field (`x`, `y`, `width`, `height` of a
layer, or `width`, `height` of the canvas) given a negative or
fractional JSON number fails to decode, and so does the enclosing
object. -/
theorem unsigned_rejects_negative_or_fractional
    (kvs : List (String × Json)) (name : String) (j : Json)
    (hname : name = "x" ∨ name = "y" ∨ name = "width" ∨ name = "height")
    (hget : getField kvs name = some j)
    (hbad : (∃ n : Int, j = .int n ∧ n < 0) ∨
            (∃ q : ℚ, j = .float q ∧ (q < 0 ∨ q.den ≠ 1))) :
    (∃ e, decodeU32 j = .error e) ∧
    (∃ e, decodeImageLayer (.obj kvs) = .error e) ∧
    (∃ e, decodeSolidLayer (.obj kvs) = .error e) ∧
    ((name = "width" ∨ name = "height") →
        ∃ e, decodeCliGenerateImageCommand (.obj kvs) = .error e) := by
  have hu : ∀ m, decodeU32 j ≠ .ok m := by
    intro m hm
    obtain ⟨k, hjk, -, -⟩ := decodeU32_ok hm
    rcases hbad with ⟨n, hjn, hn⟩ | ⟨q, hjq, -⟩
    · rw [hjn] at hjk
      have : n = (k : Int) := Json.int.inj hjk
      omega
    · rw [hjq] at hjk
      exact Json.noConfusion hjk
  have hreq : ∀ m, reqField kvs name decodeU32 ≠ .ok m := by
    intro m hm
    obtain ⟨j2, hj2, hdec⟩ := reqField_ok hm
    rw [hget] at hj2
    rw [← Option.some.inj hj2] at hdec
    exact hu m hdec
  refine ⟨error_of_not_ok hu, ?_, ?_, ?_⟩
  · refine error_of_not_ok (fun v hv => ?_)
    obtain ⟨-, hx, hy, hw, hh⟩ := decodeImageLayer_ok hv
    rcases hname with rfl | rfl | rfl | rfl
    · exact hreq v.x hx
    · exact hreq v.y hy
    · exact hreq v.width hw
    · exact hreq v.height hh
  · refine error_of_not_ok (fun v hv => ?_)
    obtain ⟨-, hx, hy, hw, hh⟩ := decodeSolidLayer_ok hv
    rcases hname with rfl | rfl | rfl | rfl
    · exact hreq v.x hx
    · exact hreq v.y hy
    · exact hreq v.width hw
    · exact hreq v.height hh
  · intro hname2
    refine error_of_not_ok (fun v hv => ?_)
    obtain ⟨hw, hh, -, -, -⟩ := decodeCliGenerateImageCommand_ok hv
    rcases hname2 with rfl | rfl
    · exact hreq v.width hw
    · exact hreq v.height hh

/-- Claim C6 witness: an image layer whose `x` is `-1` fails to decode. -/
theorem unsigned_rejects_negative_or_fractional_witness :
    (∃ e, decodeU32 (.int (-1)) = .error e) ∧
    (∃ e, decodeImageLayer (.obj [("src", .str "a"), ("x", .int (-1)),
        ("y", .int 0), ("width", .int 1), ("height", .int 1)]) = .error e) :=
  ⟨(unsigned_rejects_negative_or_fractional
      [("src", .str "a"), ("x", .int (-1)), ("y", .int 0), ("width", .int 1),
       ("height", .int 1)]
      "x" (.int (-1)) (.inl rfl) rfl (.inl ⟨-1, rfl, by decide⟩)).1,
   (unsigned_rejects_negative_or_fractional
      [("src", .str "a"), ("x", .int (-1)), ("y", .int 0), ("width", .int 1),
       ("height", .int 1)]
      "x" (.int (-1)) (.inl rfl) rfl (.inl ⟨-1, rfl, by decide⟩)).2.1⟩

/-- Claim C7: a `Solid` params object whose `fill` array has a length
other than 4, or any entry that is not an integer in `[0, 255]`, fails
decoding; and a successful decode always yields exactly four components,
each below 256. -/
theorem solid_fill_arity_and_range :
    (∀ (kvs : List (String × Json)) (xs : List Json),
        getField kvs "fill" = some (.arr xs) → xs.length ≠ 4 →
        ∃ e, decodeSolidLayer (.obj kvs) = .error e) ∧
    (∀ (kvs : List (String × Json)) (xs : List Json) (j : Json),
        getField kvs "fill" = some (.arr xs) → j ∈ xs →
        (¬ ∃ n : Int, j = .int n ∧ 0 ≤ n ∧ n ≤ 255) →
        ∃ e, decodeSolidLayer (.obj kvs) = .error e) ∧
    (∀ (kvs : List (String × Json)) (v : SolidLayer),
        decodeSolidLayer (.obj kvs) = .ok v →
        v.fill.length = 4 ∧ ∀ c ∈ v.fill, c < 256) := by
  have hfill_ok : ∀ (kvs : List (String × Json)) (xs : List Json) (v : SolidLayer),
      getField kvs "fill" = some (.arr xs) → decodeSolidLayer (.obj kvs) = .ok v →
      xs.length = 4 ∧ decodeList decodeU8 xs = .ok v.fill := by
    intro kvs xs v hget hv
    obtain ⟨hf, -, -, -, -⟩ := decodeSolidLayer_ok hv
    obtain ⟨jf, hjf, hf2⟩ := reqField_ok hf
    rw [hget] at hjf
    rw [← Option.some.inj hjf] at hf2
    obtain ⟨ys, hys, hlen, hdec⟩ := decodeFill_ok hf2
    have hysx : ys = xs := (Json.arr.inj hys).symm
    subst hysx
    exact ⟨hlen, hdec⟩
  refine ⟨?_, ?_, ?_⟩
  · intro kvs xs hget hlen
    refine error_of_not_ok (fun v hv => ?_)
    exact hlen (hfill_ok kvs xs v hget hv).1
  · intro kvs xs j hget hmem hbad
    refine error_of_not_ok (fun v hv => ?_)
    obtain ⟨-, hdec⟩ := hfill_ok kvs xs v hget hv
    obtain ⟨a, ha⟩ := decodeList_ok_mem_in hdec j hmem
    obtain ⟨k, hjk, -, hk⟩ := decodeU8_ok ha
    refine hbad ⟨(k : Int), hjk, Int.ofNat_nonneg k, ?_⟩
    omega
  · intro kvs v hv
    obtain ⟨hlen, hmem, -, -, -, -⟩ := decodeSolidLayer_wf hv
    exact ⟨hlen, hmem⟩

/-- Claim C7 witness: a three-entry fill fails, and the spec's concrete
`Solid` params decode has exactly four components. -/
theorem solid_fill_arity_and_range_witness :
    (∃ e, decodeSolidLayer (.obj [("fill", .arr [.int 255, .int 0, .int 0]),
        ("x", .int 0), ("y", .int 0), ("width", .int 10), ("height", .int 10)])
        = .error e) ∧
    (⟨[255, 0, 0, 255], 0, 0, 10, 10⟩ : SolidLayer).fill.length = 4 :=
  ⟨solid_fill_arity_and_range.1
      [("fill", .arr [.int 255, .int 0, .int 0]), ("x", .int 0), ("y", .int 0),
       ("width", .int 10), ("height", .int 10)]
      [.int 255, .int 0, .int 0] rfl (by decide),
   (solid_fill_arity_and_range.2.2
      [("fill", .arr [.int 255, .int 0, .int 0, .int 255]), ("x", .int 0),
       ("y", .int 0), ("width", .int 10), ("height", .int 10)]
      ⟨[255, 0, 0, 255], 0, 0, 10, 10⟩ (by decide)).1⟩

/-- Claim C8: a `Layer` params object that omits one of its required
fields fails to decode, and a `Compose` document containing such a layer
fails as a whole; no field is defaulted. -/
theorem layer_missing_required_field_fails
    (kvs p : List (String × Json)) (tag name : String)
    (htype : getField kvs "type" = some (.str tag))
    (hparams : getField kvs "params" = some (.obj p))
    (hreq : (tag = "Solid" ∧ name ∈ (["fill", "x", "y", "width", "height"] : List String)) ∨
            ((tag = "PngImage" ∨ tag = "JpgImage") ∧
              name ∈ (["src", "x", "y", "width", "height"] : List String)))
    (hmiss : getField p name = none) :
    (∃ e, decodeLayer (.obj kvs) = .error e) ∧
    (∀ (ckvs : List (String × Json)) (xs : List Json),
        getField ckvs "layers" = some (.arr xs) → (Json.obj kvs) ∈ xs →
        ∃ e, decodeCliGenerateImageCommand (.obj ckvs) = .error e) := by
  have hreqnone : ∀ (α : Type) (dec : Json → Except DecodeError α) (a : α),
      reqField p name dec ≠ .ok a := by
    intro α dec a ha
    obtain ⟨j2, hj2, -⟩ := reqField_ok ha
    rw [hmiss] at hj2
    exact Option.noConfusion hj2
  have himage : ∀ v, decodeImageLayer (.obj p) ≠ .ok v ∨
      name ∉ (["src", "x", "y", "width", "height"] : List String) := by
    intro v
    by_cases hv : decodeImageLayer (.obj p) = .ok v
    · right
      intro hmem
      obtain ⟨hsrc, hx, hy, hw, hh⟩ := decodeImageLayer_ok hv
      fin_cases hmem
      · exact hreqnone String decodeString v.src hsrc
      · exact hreqnone Nat decodeU32 v.x hx
      · exact hreqnone Nat decodeU32 v.y hy
      · exact hreqnone Nat decodeU32 v.width hw
      · exact hreqnone Nat decodeU32 v.height hh
    · exact .inl hv
  have hsolid : ∀ v, decodeSolidLayer (.obj p) ≠ .ok v ∨
      name ∉ (["fill", "x", "y", "width", "height"] : List String) := by
    intro v
    by_cases hv : decodeSolidLayer (.obj p) = .ok v
    · right
      intro hmem
      obtain ⟨hf, hx, hy, hw, hh⟩ := decodeSolidLayer_ok hv
      fin_cases hmem
      · exact hreqnone (List Nat) decodeFill v.fill hf
      · exact hreqnone Nat decodeU32 v.x hx
      · exact hreqnone Nat decodeU32 v.y hy
      · exact hreqnone Nat decodeU32 v.width hw
      · exact hreqnone Nat decodeU32 v.height hh
    · exact .inl hv
  have hlayer : ∀ l, decodeLayer (.obj kvs) ≠ .ok l := by
    intro l hl
    obtain ⟨tag2, p2, htype2, hparams2, hcase⟩ := decodeLayer_ok_inv hl
    have htag2 : tag2 = tag := by
      rw [htype] at htype2
      exact Json.str.inj (Option.some.inj htype2.symm)
    have hp2 : p2 = .obj p := by
      rw [hparams] at hparams2
      exact (Option.some.inj hparams2).symm
    subst htag2
    subst hp2
    rcases hcase with ⟨htg, v, hv, -⟩ | ⟨htg, v, hv, -⟩ | ⟨htg, v, hv, -⟩
    · subst htg
      rcases hreq with ⟨hcontra, -⟩ | ⟨-, hmem⟩
      · exact absurd hcontra (by decide)
      · rcases himage v with hbad | hbad
        · exact hbad hv
        · exact hbad hmem
    · subst htg
      rcases hreq with ⟨hcontra, -⟩ | ⟨-, hmem⟩
      · exact absurd hcontra (by decide)
      · rcases himage v with hbad | hbad
        · exact hbad hv
        · exact hbad hmem
    · subst htg
      rcases hreq with ⟨-, hmem⟩ | ⟨hcontra, -⟩
      · rcases hsolid v with hbad | hbad
        · exact hbad hv
        · exact hbad hmem
      · rcases hcontra with hcontra | hcontra <;> exact absurd hcontra (by decide)
  refine ⟨error_of_not_ok hlayer, ?_⟩
  intro ckvs xs hget hmem
  refine error_of_not_ok (fun c hc => ?_)
  obtain ⟨-, -, hlay, -, -⟩ := decodeCliGenerateImageCommand_ok hc
  obtain ⟨jl, hjl, hl2⟩ := reqField_ok hlay
  rw [hget] at hjl
  rw [← Option.some.inj hjl] at hl2
  obtain ⟨ys, hys, hdec⟩ := decodeLayers_ok hl2
  have hysx : ys = xs := (Json.arr.inj hys).symm
  subst hysx
  obtain ⟨l, hl⟩ := decodeList_ok_mem_in hdec (Json.obj kvs) hmem
  exact hlayer l hl

/-- Claim C8 witness: a `Solid` layer without `fill` fails to decode. -/
theorem layer_missing_required_field_fails_witness :
    ∃ e, decodeLayer (.obj [("type", .str "Solid"),
        ("params", .obj [("x", .int 0), ("y", .int 0), ("width", .int 10),
          ("height", .int 10)])]) = .error e :=
  (layer_missing_required_field_fails
    [("type", .str "Solid"),
     ("params", .obj [("x", .int 0), ("y", .int 0), ("width", .int 10),
       ("height", .int 10)])]
    [("x", .int 0), ("y", .int 0), ("width", .int 10), ("height", .int 10)]
    "Solid" "fill" rfl rfl (.inl ⟨rfl, by decide⟩) rfl).1

/-- Claim C9: inserting an unrecognized extra field anywhere into a
params object changes nothing: each params decoder returns the same
result with and without the extra field, so an otherwise-valid document
still decodes, to the same value. -/
theorem unknown_extra_field_ignored (kvs₁ kvs₂ : List (String × Json))
    (k : String) (w : Json) :
    (k ∉ (["input", "output", "time"] : List String) →
        decodeExtractFrameCommand (.obj (kvs₁ ++ (k, w) :: kvs₂))
          = decodeExtractFrameCommand (.obj (kvs₁ ++ kvs₂))) ∧
    (k ∉ (["width", "height", "layers", "output_format", "output"] : List String) →
        decodeCliGenerateImageCommand (.obj (kvs₁ ++ (k, w) :: kvs₂))
          = decodeCliGenerateImageCommand (.obj (kvs₁ ++ kvs₂))) ∧
    (k ∉ (["src", "x", "y", "width", "height"] : List String) →
        decodeImageLayer (.obj (kvs₁ ++ (k, w) :: kvs₂))
          = decodeImageLayer (.obj (kvs₁ ++ kvs₂))) ∧
    (k ∉ (["fill", "x", "y", "width", "height"] : List String) →
        decodeSolidLayer (.obj (kvs₁ ++ (k, w) :: kvs₂))
          = decodeSolidLayer (.obj (kvs₁ ++ kvs₂))) := by
  refine ⟨?_, ?_, ?_, ?_⟩
  · intro hk
    simp only [List.mem_cons, List.mem_singleton, List.not_mem_nil] at hk
    push_neg at hk
    obtain ⟨h1, h2, h3, -⟩ := hk
    simp only [decodeExtractFrameCommand,
      reqField_insert_ne kvs₁ kvs₂ k "input" w decodeString h1,
      reqField_insert_ne kvs₁ kvs₂ k "output" w decodeString h2,
      reqField_insert_ne kvs₁ kvs₂ k "time" w decodeF64 h3]
  · intro hk
    simp only [List.mem_cons, List.mem_singleton, List.not_mem_nil] at hk
    push_neg at hk
    obtain ⟨h1, h2, h3, h4, h5, -⟩ := hk
    simp only [decodeCliGenerateImageCommand,
      reqField_insert_ne kvs₁ kvs₂ k "width" w decodeU32 h1,
      reqField_insert_ne kvs₁ kvs₂ k "height" w decodeU32 h2,
      reqField_insert_ne kvs₁ kvs₂ k "layers" w decodeLayers h3,
      reqField_insert_ne kvs₁ kvs₂ k "output_format" w decodeImageFormat h4,
      reqField_insert_ne kvs₁ kvs₂ k "output" w decodeString h5]
  · intro hk
    simp only [List.mem_cons, List.mem_singleton, List.not_mem_nil] at hk
    push_neg at hk
    obtain ⟨h1, h2, h3, h4, h5, -⟩ := hk
    simp only [decodeImageLayer,
      reqField_insert_ne kvs₁ kvs₂ k "src" w decodeString h1,
      reqField_insert_ne kvs₁ kvs₂ k "x" w decodeU32 h2,
      reqField_insert_ne kvs₁ kvs₂ k "y" w decodeU32 h3,
      reqField_insert_ne kvs₁ kvs₂ k "width" w decodeU32 h4,
      reqField_insert_ne kvs₁ kvs₂ k "height" w decodeU32 h5]
  · intro hk
    simp only [List.mem_cons, List.mem_singleton, List.not_mem_nil] at hk
    push_neg at hk
    obtain ⟨h1, h2, h3, h4, h5, -⟩ := hk
    simp only [decodeSolidLayer,
      reqField_insert_ne kvs₁ kvs₂ k "fill" w decodeFill h1,
      reqField_insert_ne kvs₁ kvs₂ k "x" w decodeU32 h2,
      reqField_insert_ne kvs₁ kvs₂ k "y" w decodeU32 h3,
      reqField_insert_ne kvs₁ kvs₂ k "width" w decodeU32 h4,
      reqField_insert_ne kvs₁ kvs₂ k "height" w decodeU32 h5]

/-- Claim C9 witness: an `ExtractFrame` params object with an extra
`comment` field decodes exactly like the one without it. -/
theorem unknown_extra_field_ignored_witness :
    decodeExtractFrameCommand (.obj ([("input", .str "a"), ("output", .str "b")]
        ++ ("comment", .str "ignored") :: [("time", .int 3)]))
      = decodeExtractFrameCommand (.obj ([("input", .str "a"), ("output", .str "b")]
        ++ [("time", .int 3)])) :=
  (unknown_extra_field_ignored [("input", .str "a"), ("output", .str "b")]
    [("time", .int 3)] "comment" (.str "ignored")).1 (by decide)

end Payloads
